import Mathlib

/-!
# Verification of the research-report workflow engine and its agents

Shallow embedding of the durable multi-step workflow engine of the
ai-research-report-generator repository and of the agent functions it
orchestrates, together with proofs of the spec's claims about them.

Sources embedded:
* `src/packages/lib/inngest/functions/generate-research-report.ts`
  (the Inngest workflow function and the database writes it performs),
* `src/app/api/reports/[reportId]/cancel/route.ts` (cancellation handler),
* `src/app/api/reports/generate/route.ts` (start-run handler),
* `src/packages/lib/ai-agents/research-planner.ts` (`planResearch` validation),
* the researcher agent (`synthesizeFindings`, `researchQuestion`,
  `conductResearch`),
* the critic agent (`critiqueResearch` confidence handling),
* the reviewer agent (`parseReviewResponse`),
* the AI service (`generateWithRetry`, exponential backoff).

External effects (the LLM call, the web-search call, the database) are
modelled as oracles / explicit state, as usual for a shallow embedding.
-/

namespace ReportGen

/-! ## Report status enumeration

Mirrors the Prisma `ReportStatus` enum used throughout the repository. -/

inductive ReportStatus
  | PENDING
  | PLANNING
  | RESEARCHING
  | CRITIQUING
  | WRITING
  | FORMATTING
  | COMPLETED
  | FAILED
  | CANCELLED
deriving DecidableEq, Repr

/-- Terminal statuses, exactly the three checked by the cancellation
handler (`report.status === 'COMPLETED' || 'FAILED' || 'CANCELLED'`). -/
def ReportStatus.isTerminal : ReportStatus → Bool
  | .COMPLETED => true
  | .FAILED => true
  | .CANCELLED => true
  | _ => false

/-- Position of a status in the forward chain
`PENDING, PLANNING, RESEARCHING, CRITIQUING, WRITING, FORMATTING, COMPLETED`;
`none` for the two abort statuses, which are outside the chain. -/
def ReportStatus.chainPos : ReportStatus → Option Nat
  | .PENDING => some 0
  | .PLANNING => some 1
  | .RESEARCHING => some 2
  | .CRITIQUING => some 3
  | .WRITING => some 4
  | .FORMATTING => some 5
  | .COMPLETED => some 6
  | .FAILED => none
  | .CANCELLED => none

/-! ## Workflow engine status writes

`generateResearchReport` (src/packages/lib/inngest/functions/
generate-research-report.ts) runs five Inngest steps in order; each step
execution first writes its in-progress status, the final step
additionally writes `COMPLETED`, and the surrounding `catch` writes
`FAILED`.  The function is configured with `retries: 2`, so a failing
step re-executes up to twice more, each re-execution re-performing the
step's status update.  All engine updates are unconditional
(`where: { id: reportId }`, no status guard).  The Inngest `cancelOn`
configuration stops the run when the `research/report.cancelled` event
for the same `reportId` arrives, but it does not abort an already
executing step; the cancellation route checks that the record is not
terminal and then, in a separate operation, writes `CANCELLED`. -/

/-- The five engine phases, in the order the engine runs them. -/
inductive Phase
  | plan
  | research
  | critique
  | write
  | review
deriving DecidableEq, Repr

/-- The in-progress status each step writes on entry
(`data: { status: 'PLANNING' }`, ..., `data: { status: 'FORMATTING' }`). -/
def Phase.startStatus : Phase → ReportStatus
  | .plan => .PLANNING
  | .research => .RESEARCHING
  | .critique => .CRITIQUING
  | .write => .WRITING
  | .review => .FORMATTING

/-- The phases in engine order. -/
def phaseOrder : List Phase := [.plan, .research, .critique, .write, .review]

/-- Admissible execution count of one Inngest step within one run: the
first attempt plus up to two retries (`retries: 2`,
generate-research-report.ts line 12), so between 1 and 3 executions.
Every execution re-runs the whole step closure, re-performing its
initial status update. -/
def attemptOk (a : Nat) : Bool := 1 ≤ a && a ≤ 3

/-- The engine's step-start status writes for a run in which the first
`as.length` steps begin, step `i` executing `as[i]` times: each
execution of step `i` writes `(phaseOrder[i]).startStatus` once, so a
retried step re-writes the same in-progress status. -/
def phaseWrites (as : List Nat) : List ReportStatus :=
  ((as.zip phaseOrder).map
    (fun b => List.replicate b.1 b.2.startStatus)).flatten

/-- A serialized run: the engine's writes land in program order and a
cancellation, if any, takes effect before the engine's next status
write.  `as` records how many times each begun step executed. -/
inductive RunOutcome
  /-- All five steps eventually succeed (each within its attempt bound);
  the review step's final update writes `COMPLETED`. -/
  | completed (as : List Nat)
  /-- The last begun step exhausts its three executions; the `catch`
  block writes `FAILED`. -/
  | failedAt (as : List Nat)
  /-- The cancellation event stops the run after the steps in `as`; the
  cancel route's guard saw a non-terminal status and wrote `CANCELLED`,
  and the engine writes nothing afterwards. -/
  | cancelledAt (as : List Nat)

/-- Validity of a serialized run: attempt bounds per step; `completed`
needs all five steps; `failedAt` needs at least one begun step whose
last (failing) step used all 3 executions. -/
def runOutcomeOk : RunOutcome → Bool
  | .completed as => as.length = 5 && as.all attemptOk
  | .failedAt as =>
      decide (1 ≤ as.length) && decide (as.length ≤ 5) &&
        as.all attemptOk && decide (as.getLast? = some 3)
  | .cancelledAt as => decide (as.length ≤ 5) && as.all attemptOk

/-- The status history of a serialized run: the record is created in
`PENDING` by the start-run route, then each write replaces the status. -/
def statusTrace : RunOutcome → List ReportStatus
  | .completed as => .PENDING :: (phaseWrites as ++ [.COMPLETED])
  | .failedAt as => .PENDING :: (phaseWrites as ++ [.FAILED])
  | .cancelledAt as => .PENDING :: (phaseWrites as ++ [.CANCELLED])

/-- The status histories the system can produce.  Serialized runs are
always possible.  In addition, every engine update is unconditional
(`where: { id }` with no status guard) and the cancel route's terminal
check and its `CANCELLED` update are two separate database operations,
so a cancellation concurrent with an in-flight step interleaves with
that step's writes: Inngest's `cancelOn` does not abort an executing
step, it only prevents later ones from starting. -/
inductive SystemTrace : List ReportStatus → Prop
  /-- Any serialized run. -/
  | serialized (o : RunOutcome) (h : runOutcomeOk o = true) :
      SystemTrace (statusTrace o)
  /-- Cancellation lands between the in-flight review step's
  `FORMATTING` and `COMPLETED` updates: the route's guard read a
  non-terminal status, wrote `CANCELLED`, and the step's unconditional
  completion update then overwrites it with `COMPLETED`. -/
  | reviewCancelRace (as : List Nat) (h5 : as.length = 5)
      (hall : as.all attemptOk = true) :
      SystemTrace (.PENDING :: (phaseWrites as ++ [.CANCELLED, .COMPLETED]))
  /-- Cancellation lands between the last begun step's final failing
  execution and the `catch` block's unconditional `FAILED` update, which
  then overwrites `CANCELLED`. -/
  | catchCancelRace (as : List Nat) (h1 : 1 ≤ as.length)
      (h5 : as.length ≤ 5) (hall : as.all attemptOk = true)
      (hl : as.getLast? = some 3) :
      SystemTrace (.PENDING :: (phaseWrites as ++ [.CANCELLED, .FAILED]))
  /-- The cancel route's guard reads a non-terminal status, the run then
  completes, and the route's unconditional update lands afterwards,
  overwriting `COMPLETED` with `CANCELLED`. -/
  | staleCancelRace (as : List Nat) (h5 : as.length = 5)
      (hall : as.all attemptOk = true) :
      SystemTrace (.PENDING :: (phaseWrites as ++ [.COMPLETED, .CANCELLED]))

/-- One status write is legal in the sense of the monotonicity claim:
the overwritten status is non-terminal, and the new status either moves
strictly forward along the chain or is one of the two abort statuses. -/
def okWrite (a b : ReportStatus) : Bool :=
  !a.isTerminal &&
    (b = .FAILED || b = .CANCELLED ||
      (match a.chainPos, b.chainPos with
        | some i, some j => decide (i < j)
        | _, _ => false))

/-- C1 as claimed: in every run history every consecutive status write
advances forward or aborts a non-terminal status — never backward, never
a repeat, never over a terminal status. -/
def claimEveryWriteMonotonic : Prop :=
  ∀ t : List ReportStatus, SystemTrace t →
    t.Chain' (fun a b => okWrite a b = true)

/-- A write allowed in a serialized run: a strict forward move or an
abort of a non-terminal status (`okWrite`), or a step retry re-writing
the in-progress status already current. -/
def okWriteRetry (a b : ReportStatus) : Bool :=
  okWrite a b ||
    (decide (a = b) && !a.isTerminal && !(decide (a = ReportStatus.PENDING)))

/-- Executable check that every adjacent pair of a status history is a
legal write. -/
def writesOk : List ReportStatus → Bool
  | a :: b :: rest => okWrite a b && writesOk (b :: rest)
  | _ => true

/-- Executable check for the retry-tolerant write rule. -/
def writesOkR : List ReportStatus → Bool
  | a :: b :: rest => okWriteRetry a b && writesOkR (b :: rest)
  | _ => true

/-! ## Database update payloads

One `db.report.update` call, as a record of which fields its `data`
object sets.  Artifact fields are tracked as "written or not"; `status`
and `errorMessage` carry their written values. -/

structure UpdateData where
  status : Option ReportStatus := none
  researchPlan : Bool := false
  findings : Bool := false
  critique : Bool := false
  finalReport : Bool := false
  reportMetadata : Bool := false
  completedAt : Bool := false
  errorMessage : Option String := none
deriving DecidableEq, Repr

/-- The `db.report.update` calls each engine step performs, in order,
copied from `generateResearchReport`:
* `plan-research`: `{status: 'PLANNING'}` then `{researchPlan: plan}`;
* `conduct-research`: `{status: 'RESEARCHING'}` then `{findings: research}`;
* `critique-research`: `{status: 'CRITIQUING'}` then `{critique: ...}`;
* `write-report`: `{status: 'WRITING'}` only — the draft is kept in the
  step's return value, not written to the record;
* `review-report`: `{status: 'FORMATTING'}` then the final update
  `{status: 'COMPLETED', finalReport, completedAt, reportMetadata}`. -/
def stepUpdates : Phase → List UpdateData
  | .plan => [{ status := some .PLANNING }, { researchPlan := true }]
  | .research => [{ status := some .RESEARCHING }, { findings := true }]
  | .critique => [{ status := some .CRITIQUING }, { critique := true }]
  | .write => [{ status := some .WRITING }]
  | .review =>
      [{ status := some .FORMATTING },
       { status := some .COMPLETED, finalReport := true,
         completedAt := true, reportMetadata := true }]

/-- The engine `catch` block's update:
`{status: 'FAILED', errorMessage: error.message}`. -/
def engineFailureUpdate (msg : String) : UpdateData :=
  { status := some .FAILED, errorMessage := some msg }

/-- The cancellation route's update, performed only after the
terminal-status guard:
`{status: 'CANCELLED', errorMessage: 'Cancelled by user'}`. -/
def cancelUpdate : UpdateData :=
  { status := some .CANCELLED, errorMessage := some "Cancelled by user" }

/-- Every update payload any operation of the system can issue against a
report record after creation: the five steps' updates, the engine failure
update (for an arbitrary captured message), and the cancellation update. -/
def systemWrites (msg : String) : List UpdateData :=
  stepUpdates .plan ++ stepUpdates .research ++ stepUpdates .critique ++
    stepUpdates .write ++ stepUpdates .review ++
    [engineFailureUpdate msg, cancelUpdate]

/-- Whether an update payload writes any phase artifact field. -/
def persistsArtifact (u : UpdateData) : Bool :=
  u.researchPlan || u.findings || u.critique || u.finalReport || u.reportMetadata

/-- C3 as claimed: every phase's step both writes the phase's in-progress
status and persists an output artifact to the record. -/
def claimPhasePersistence : Prop :=
  ∀ p : Phase,
    (stepUpdates p).any (fun u => u.status = some p.startStatus) = true ∧
    (stepUpdates p).any persistsArtifact = true

/-- C4 as claimed: any update that sets `errorMessage` sets status
`FAILED`. -/
def claimErrorMessageOnlyFailed : Prop :=
  ∀ (msg : String) (u : UpdateData),
    u ∈ systemWrites msg → u.errorMessage ≠ none → u.status = some .FAILED

/-! ## Confidence normalization

`synthesizeFindings` (researcher agent):
```
let confidence = synthesis.confidence;
if (confidence > 1) { confidence = confidence / 100; }
if (confidence < 0 || confidence > 1) { confidence = 0.5; }
```
`critiqueResearch` (critic agent):
```
if (critique.confidence > 1) { critique.confidence = critique.confidence / 100; }
```
-/

/-- Second step of the researcher's normalization: a value outside
`[0, 1]` is replaced by the default `0.5`. -/
def clampDefault (c : ℚ) : ℚ :=
  if c < 0 ∨ c > 1 then 0.5 else c

/-- Confidence normalization of the researcher's `synthesizeFindings`:
divide by 100 when above 1, then default when still out of range. -/
def synthesizeConfidence (raw : ℚ) : ℚ :=
  clampDefault (if raw > 1 then raw / 100 else raw)

/-- Confidence normalization of the critic's `critiqueResearch`: a value
above 1 is divided by 100; nothing else is done. -/
def critiqueConfidenceNorm (raw : ℚ) : ℚ :=
  if raw > 1 then raw / 100 else raw

/-- C2 as claimed: both agents' stored confidences always land in
`[0, 1]`. -/
def claimConfidenceInRange : Prop :=
  ∀ raw : ℚ,
    (0 ≤ synthesizeConfidence raw ∧ synthesizeConfidence raw ≤ 1) ∧
    (0 ≤ critiqueConfidenceNorm raw ∧ critiqueConfidenceNorm raw ≤ 1)

/-! ## Start-run route

`POST /api/reports/generate`: after topic sanitation, a single
`db.$transaction` conditionally decrements the caller's credits
(`where: { id, credits: { gte: 1 } }, data: { credits: { decrement: 1 } }`)
and creates the report in `PENDING`; if the conditional update matches no
row the transaction aborts with `INSUFFICIENT_CREDITS` and nothing is
created. -/

/-- A report record row, with the fields the claims touch. -/
structure ReportRow where
  topic : String
  status : ReportStatus
  errorMessage : Option String := none
deriving DecidableEq, Repr

/-- The per-user state the start-run transaction touches: the credit
balance and the user's report records. -/
structure UserState where
  credits : Nat
  reports : List ReportRow
deriving DecidableEq, Repr

inductive StartRunResult
  /-- Report created; carries the index of the new record. -/
  | started (idx : Nat)
  | insufficientCredits
deriving DecidableEq, Repr

/-- The start-run transaction as one atomic state transition: debit one
credit and create one `PENDING` record, or fail with zero side effects
when fewer than 1 credit is available. -/
def startRun (s : UserState) (topic : String) : StartRunResult × UserState :=
  if 1 ≤ s.credits then
    (.started s.reports.length,
     { credits := s.credits - 1,
       reports := s.reports ++ [{ topic := topic, status := .PENDING }] })
  else
    (.insufficientCredits, s)

/-! ## Cancellation route

`POST /api/reports/[reportId]/cancel`: rejects when the record's status
is `COMPLETED`, `FAILED` or `CANCELLED`; otherwise writes
`{status: 'CANCELLED', errorMessage: 'Cancelled by user'}`. -/

inductive CancelResult
  | cancelled
  | cannotCancel
deriving DecidableEq, Repr

/-- The cancellation handler's effect on a (found, access-verified)
report record. -/
def cancelReport (r : ReportRow) : CancelResult × ReportRow :=
  if r.status.isTerminal then
    (.cannotCancel, r)
  else
    (.cancelled,
     { r with status := .CANCELLED, errorMessage := some "Cancelled by user" })

/-! ## Research planner validation

`planResearch` (src/packages/lib/ai-agents/research-planner.ts) parses the
model response (fallback `{questions: [], areas: [], approach: ''}`) and
then validates:
* no questions → error `'No research questions generated'`;
* no areas → error `'No research areas identified'`;
* fewer than 5 questions → error `'Only N questions generated, need at least 5'`;
* more than 7 questions → keep the first 7;
* more than 5 areas → keep the first 5. -/

structure ResearchPlan where
  questions : List String
  areas : List String
  approach : String
deriving DecidableEq, Repr

inductive PlanError
  | noQuestions
  | noAreas
  | tooFewQuestions (n : Nat)
deriving DecidableEq, Repr

/-- The validation and trimming `planResearch` applies to a successfully
parsed plan (lines 84–107 of research-planner.ts). -/
def validatePlan (plan : ResearchPlan) : Except PlanError ResearchPlan :=
  if plan.questions.length = 0 then
    .error .noQuestions
  else if plan.areas.length = 0 then
    .error .noAreas
  else if plan.questions.length < 5 then
    .error (.tooFewQuestions plan.questions.length)
  else
    .ok { plan with
      questions :=
        if plan.questions.length > 7 then plan.questions.take 7
        else plan.questions,
      areas :=
        if plan.areas.length > 5 then plan.areas.take 5 else plan.areas }

/-! ## Researcher agent

`conductResearch` (researcher module): errors on an empty question list;
otherwise researches each question, collecting per-question failures
without aborting; in sequential mode a 1000 ms delay follows an iteration
when `i < questions.length - 1` (the delay statement sits on the success
path of the loop body, after `findings.push`); at the end it errors iff
no question succeeded.  `researchQuestion` fails when the search returns
zero sources.  The web search and the synthesis call are oracles. -/

structure SearchResult where
  title : String
  url : String
  snippet : String
  publishedDate : Option String := none
  score : Option ℚ := none
deriving DecidableEq, Repr

structure ResearchFinding where
  question : String
  answer : String
  sources : List SearchResult
  confidence : ℚ
  timestamp : String
deriving DecidableEq, Repr

/-- `researchQuestion`: given the search results and the synthesis
outcome for one question, fail on zero sources
(`'No sources found for this question'`), otherwise build the finding;
every failure is wrapped `'Failed to research question: ...'`. -/
def researchQuestion (question : String) (sources : List SearchResult)
    (synth : Except String (String × ℚ)) (timestamp : String) :
    Except String ResearchFinding :=
  if sources.length = 0 then
    .error "Failed to research question: No sources found for this question"
  else
    match synth with
    | .error e => .error ("Failed to research question: " ++ e)
    | .ok (answer, confidence) =>
        .ok { question := question, answer := answer, sources := sources,
              confidence := confidence, timestamp := timestamp }

/-- Whether a per-question outcome succeeded. -/
def isOkB : Except String ResearchFinding → Bool
  | .ok _ => true
  | .error _ => false

/-- The finding of a successful outcome. -/
def okPart : Except String ResearchFinding → Option ResearchFinding
  | .ok f => some f
  | .error _ => none

/-- The message of a failed outcome. -/
def errPart : Except String ResearchFinding → Option String
  | .ok _ => none
  | .error e => some e

/-- The collection both modes perform over the per-question outcomes:
successes into `findings`, failures into `errors`, order preserved,
later questions processed regardless of earlier failures. -/
def collectResults : List (Except String ResearchFinding) →
    List ResearchFinding × List String
  | [] => ([], [])
  | o :: rest =>
    let r := collectResults rest
    match o with
    | .ok f => (f :: r.1, r.2)
    | .error e => (r.1, e :: r.2)

/-- The delay iteration `i` of `n` awaits after its body: the
`if (i < questions.length - 1) await setTimeout(1000)` statement sits on
the success path of the loop body, so a throwing iteration jumps to its
`catch` and awaits nothing. -/
def delayAfter (n i : Nat) : Except String ResearchFinding → List Nat
  | .ok _ => if i < n - 1 then [1000] else []
  | .error _ => []

/-- The sequential loop's rate-limit delay trace (ms), for outcomes
starting at index `i` of `n` questions. -/
def seqDelays (n : Nat) : Nat → List (Except String ResearchFinding) → List Nat
  | _, [] => []
  | i, o :: rest => delayAfter n i o ++ seqDelays n (i + 1) rest

/-- `conductResearch` over the per-question outcomes (each outcome is
what `researchQuestion` returned for that question).  Result, collected
per-question error messages, and the delay trace of the loop. -/
def conductResearch (parallel : Bool)
    (outcomes : List (Except String ResearchFinding)) :
    Except String (List ResearchFinding) × List String × List Nat :=
  if outcomes.length = 0 then
    (.error "No research questions provided", [], [])
  else if (collectResults outcomes).1.length = 0 then
    (.error ("Research failed: All research questions failed. Errors: " ++
      String.intercalate "; " (collectResults outcomes).2),
     (collectResults outcomes).2,
     if parallel then [] else seqDelays outcomes.length 0 outcomes)
  else
    (.ok (collectResults outcomes).1, (collectResults outcomes).2,
     if parallel then [] else seqDelays outcomes.length 0 outcomes)

/-- C8's delay clause as stated: in sequential mode a fixed delay is
inserted between every two consecutive questions, i.e. one delay per
consecutive pair. -/
def claimDelayBetweenAll : Prop :=
  ∀ outcomes : List (Except String ResearchFinding),
    outcomes ≠ [] →
    (conductResearch false outcomes).2.2 =
      List.replicate (outcomes.length - 1) 1000

/-! ## AI service: `generateWithRetry`

```
for (let attempt = 0; attempt < retries; attempt++) {
  try { return await generateText({model, prompt, temperature, system}); }
  catch (error) {
    lastError = error;
    if (attempt < retries - 1) {
      await new Promise(r => setTimeout(r, Math.pow(2, attempt) * 1000));
    }
  }
}
throw new Error(`AI generation failed after N attempts: lastError.message`);
```
The `generateText` call is an oracle from (model, attempt index) to an
outcome. -/

inductive ModelTier
  | basic
  | premium
deriving DecidableEq, Repr

/-- `getModel`: the tier selects the backing model and nothing else. -/
def getModel : ModelTier → String
  | .basic => "gpt-4o-mini"
  | .premium => "gpt-4o"

/-- Backoff waited after failed attempt `attempt`:
`Math.pow(2, attempt) * 1000` ms. -/
def backoffDelay (attempt : Nat) : Nat := 2 ^ attempt * 1000

/-- The error message thrown after the loop:
`AI generation failed after ${retries} attempts: ${lastError?.message}`
(`undefined` when no attempt ran). -/
def retryFailMsg (retries : Nat) (lastErr : Option String) : String :=
  "AI generation failed after " ++ toString retries ++ " attempts: " ++
    lastErr.getD "undefined"

/-- The retry loop, over the outcome list of the remaining attempts;
`attempt` is the index of the next attempt, `lastErr` the previous
failure.  Returns (result, backoff delays waited in order, attempts
made). -/
def retryGo (retries : Nat) :
    List (Except String String) → Nat → Option String →
    Except String String × List Nat × Nat
  | [], attempt, lastErr => (.error (retryFailMsg retries lastErr), [], attempt)
  | o :: rest, attempt, _ =>
    match o with
    | .ok t => (.ok t, [], attempt + 1)
    | .error e =>
      let r := retryGo retries rest (attempt + 1) (some e)
      if attempt < retries - 1 then (r.1, backoffDelay attempt :: r.2.1, r.2.2)
      else r

/-- `generateWithRetry` for a tier, a retry bound (the call sites that
omit it get 3), and the generation oracle. -/
def generateWithRetry (tier : ModelTier) (retries : Nat)
    (gen : String → Nat → Except String String) :
    Except String String × List Nat × Nat :=
  retryGo retries ((List.range retries).map (gen (getModel tier))) 0 none

/-! ## Reviewer agent: `parseReviewResponse`

JavaScript field defaulting with `||`: a missing or falsy field (number
`0`, empty string) is replaced; `majorChanges || []` keeps any present
array (arrays are truthy).  `JSON.parse` is modelled by its outcome:
`some p` on success, `none` when it threw (the catch branch). -/

structure ReviewCategories where
  factualCorrections : Int
  clarityImprovements : Int
  citationFixes : Int
  structuralChanges : Int
  styleEnhancements : Int
deriving DecidableEq, Repr

structure ReviewSummary where
  changesCount : Int
  categories : ReviewCategories
  majorChanges : List String
  overallQuality : String
  readabilityScore : Int
deriving DecidableEq, Repr

structure ReviewResult where
  finalReport : String
  reviewSummary : ReviewSummary
deriving DecidableEq, Repr

structure ParsedCategories where
  factualCorrections : Option Int := none
  clarityImprovements : Option Int := none
  citationFixes : Option Int := none
  structuralChanges : Option Int := none
  styleEnhancements : Option Int := none
deriving DecidableEq, Repr

structure ParsedSummary where
  changesCount : Option Int := none
  categories : Option ParsedCategories := none
  majorChanges : Option (List String) := none
  overallQuality : Option String := none
  readabilityScore : Option Int := none
deriving DecidableEq, Repr

structure ParsedReview where
  finalReport : Option String := none
  reviewSummary : Option ParsedSummary := none
deriving DecidableEq, Repr

/-- JavaScript `x || d` for an optional number field: missing or zero
(falsy) yields the default. -/
def orNum (v : Option Int) (d : Int) : Int :=
  match v with
  | none => d
  | some x => if x = 0 then d else x

/-- JavaScript `x || d` for an optional string field: missing or empty
(falsy) yields the default. -/
def orStr (v : Option String) (d : String) : String :=
  match v with
  | none => d
  | some s => if s = "" then d else s

/-- `parseReviewResponse(text, originalReport)` with the `JSON.parse`
outcome made explicit. -/
def parseReviewResponse (parsed : Option ParsedReview)
    (originalReport : String) : ReviewResult :=
  match parsed with
  | some p =>
    { finalReport := orStr p.finalReport originalReport,
      reviewSummary :=
        { changesCount :=
            orNum (p.reviewSummary.bind ParsedSummary.changesCount) 0,
          categories :=
            { factualCorrections :=
                orNum ((p.reviewSummary.bind ParsedSummary.categories).bind
                  ParsedCategories.factualCorrections) 0,
              clarityImprovements :=
                orNum ((p.reviewSummary.bind ParsedSummary.categories).bind
                  ParsedCategories.clarityImprovements) 0,
              citationFixes :=
                orNum ((p.reviewSummary.bind ParsedSummary.categories).bind
                  ParsedCategories.citationFixes) 0,
              structuralChanges :=
                orNum ((p.reviewSummary.bind ParsedSummary.categories).bind
                  ParsedCategories.structuralChanges) 0,
              styleEnhancements :=
                orNum ((p.reviewSummary.bind ParsedSummary.categories).bind
                  ParsedCategories.styleEnhancements) 0 },
          majorChanges :=
            (p.reviewSummary.bind ParsedSummary.majorChanges).getD [],
          overallQuality :=
            orStr (p.reviewSummary.bind ParsedSummary.overallQuality) "good",
          readabilityScore :=
            orNum (p.reviewSummary.bind ParsedSummary.readabilityScore) 75 } }
  | none =>
    { finalReport := originalReport,
      reviewSummary :=
        { changesCount := 0,
          categories := ⟨0, 0, 0, 0, 0⟩,
          majorChanges := ["Review parsing failed - returning original report"],
          overallQuality := "needs-work",
          readabilityScore := 50 } }

theorem writesOk_chain' (l : List ReportStatus) (h : writesOk l = true) :
    l.Chain' (fun a b => okWrite a b = true) := by
  induction l with
  | nil => simp
  | cons a rest ih =>
    cases rest with
    | nil => simp
    | cons b rest' =>
      rw [List.chain'_cons]
      simp only [writesOk, Bool.and_eq_true] at h
      exact ⟨h.1, ih h.2⟩

theorem writesOkR_chain' (l : List ReportStatus) (h : writesOkR l = true) :
    l.Chain' (fun a b => okWriteRetry a b = true) := by
  induction l with
  | nil => simp
  | cons a rest ih =>
    cases rest with
    | nil => simp
    | cons b rest' =>
      rw [List.chain'_cons]
      simp only [writesOkR, Bool.and_eq_true] at h
      exact ⟨h.1, ih h.2⟩

theorem okWrite_retry (a b : ReportStatus) (h : okWrite a b = true) :
    okWriteRetry a b = true := by
  simp [okWriteRetry, h]

theorem startStatus_retry_ok (p : Phase) :
    okWriteRetry p.startStatus p.startStatus = true := by
  cases p <;> decide

theorem writesOkR_rep (a : ReportStatus) (haa : okWriteRetry a a = true) :
    ∀ (n : Nat) (l : List ReportStatus), writesOkR (a :: l) = true →
      writesOkR (List.replicate n a ++ l) = true := by
  intro n
  induction n with
  | zero =>
    intro l h
    cases l with
    | nil => simp [writesOkR]
    | cons b rest =>
      rw [show writesOkR (a :: b :: rest) =
        (okWriteRetry a b && writesOkR (b :: rest)) from rfl,
        Bool.and_eq_true] at h
      simp only [List.replicate_zero, List.nil_append]
      exact h.2
  | succ m ih =>
    intro l h
    rw [List.replicate_succ, List.cons_append]
    cases m with
    | zero => simpa using h
    | succ k =>
      rw [List.replicate_succ, List.cons_append]
      rw [show writesOkR (a :: a :: (List.replicate k a ++ l)) =
        (okWriteRetry a a &&
          writesOkR (a :: (List.replicate k a ++ l))) from rfl,
        Bool.and_eq_true]
      refine ⟨haa, ?_⟩
      rw [← List.cons_append, ← List.replicate_succ]
      exact ih l h

theorem buildBlocks :
    ∀ (blocks : List (Nat × Phase)) (prev final : ReportStatus),
      (∀ b ∈ blocks, 1 ≤ b.1) →
      writesOk (prev ::
        (blocks.map (fun b => b.2.startStatus) ++ [final])) = true →
      writesOkR (prev ::
        ((blocks.map (fun b => List.replicate b.1 b.2.startStatus)).flatten ++
          [final])) = true := by
  intro blocks
  induction blocks with
  | nil =>
    intro prev final _ hskel
    simp only [List.map_nil, List.nil_append] at hskel
    simp only [List.map_nil, List.flatten_nil, List.nil_append]
    rw [show writesOkR (prev :: [final]) =
      (okWriteRetry prev final && writesOkR [final]) from rfl,
      Bool.and_eq_true]
    rw [show writesOk (prev :: [final]) =
      (okWrite prev final && writesOk [final]) from rfl,
      Bool.and_eq_true] at hskel
    exact ⟨okWrite_retry _ _ hskel.1, rfl⟩
  | cons b rest ih =>
    obtain ⟨n, p⟩ := b
    intro prev final hmem hskel
    simp only [List.map_cons, List.cons_append] at hskel
    rw [show writesOk (prev :: p.startStatus ::
        (rest.map (fun b => b.2.startStatus) ++ [final])) =
      (okWrite prev p.startStatus && writesOk (p.startStatus ::
        (rest.map (fun b => b.2.startStatus) ++ [final]))) from rfl,
      Bool.and_eq_true] at hskel
    obtain ⟨h1, h2⟩ := hskel
    have hrest := ih p.startStatus final
      (fun b hb => hmem b (List.mem_cons_of_mem _ hb)) h2
    have hrep := writesOkR_rep p.startStatus (startStatus_retry_ok p) n _ hrest
    obtain ⟨m, rfl⟩ : ∃ m, n = m + 1 := by
      have := hmem (n, p) (List.mem_cons_self _ _)
      exact ⟨n - 1, by omega⟩
    simp only [List.map_cons, List.flatten_cons, List.append_assoc]
    rw [List.replicate_succ, List.cons_append]
    rw [show writesOkR (prev :: p.startStatus ::
        (List.replicate m p.startStatus ++
          ((rest.map (fun b => List.replicate b.1 b.2.startStatus)).flatten ++
            [final]))) =
      (okWriteRetry prev p.startStatus && writesOkR (p.startStatus ::
        (List.replicate m p.startStatus ++
          ((rest.map (fun b => List.replicate b.1 b.2.startStatus)).flatten ++
            [final])))) from rfl,
      Bool.and_eq_true]
    refine ⟨okWrite_retry _ _ h1, ?_⟩
    rw [← List.cons_append, ← List.replicate_succ]
    exact hrep

theorem zip_snd_take (as : List Nat) :
    ∀ ps : List Phase,
      (as.zip ps).map (fun b => b.2.startStatus) =
        (ps.take as.length).map Phase.startStatus := by
  induction as with
  | nil => intro ps; simp
  | cons a as ih =>
    intro ps
    cases ps with
    | nil => simp
    | cons p ps => simp [List.zip_cons_cons, ih]

theorem skeleton_ok :
    ∀ k, k < 6 →
      ∀ final ∈ [ReportStatus.COMPLETED, .FAILED, .CANCELLED],
        writesOk (.PENDING ::
          ((phaseOrder.take k).map Phase.startStatus ++ [final])) = true := by
  decide

theorem phaseWrites_ok (as : List Nat) (final : ReportStatus)
    (hlen : as.length ≤ 5) (hall : as.all attemptOk = true)
    (hfin : final = .COMPLETED ∨ final = .FAILED ∨ final = .CANCELLED) :
    writesOkR (.PENDING :: (phaseWrites as ++ [final])) = true := by
  unfold phaseWrites
  apply buildBlocks
  · intro b hb
    obtain ⟨n, p⟩ := b
    have hn : n ∈ as := (List.of_mem_zip hb).1
    have h2 := List.all_eq_true.mp hall n hn
    simp only [attemptOk, Bool.and_eq_true, decide_eq_true_eq] at h2
    exact h2.1
  · rw [zip_snd_take]
    rcases hfin with rfl | rfl | rfl
    · exact skeleton_ok as.length (by omega) _ (by decide)
    · exact skeleton_ok as.length (by omega) _ (by decide)
    · exact skeleton_ok as.length (by omega) _ (by decide)

end ReportGen

namespace ReportGen

/-- C1, counterexample. Two real behaviours violate the claimed per-write
rule: an Inngest step retry re-writes the same in-progress status (here
`PLANNING` twice in a run later cancelled), and a cancellation racing the
in-flight review step is overwritten by that step's unconditional
`COMPLETED` update.  So not every status write advances forward or moves
a non-terminal status to `FAILED`/`CANCELLED`, and a terminal status can
be overwritten. -/
theorem status_monotonicity_refuted :
    ¬ claimEveryWriteMonotonic ∧
    SystemTrace [.PENDING, .PLANNING, .PLANNING, .CANCELLED] ∧
    ¬ ([ReportStatus.PENDING, .PLANNING, .PLANNING, .CANCELLED].Chain'
        (fun a b => okWrite a b = true)) ∧
    SystemTrace [.PENDING, .PLANNING, .RESEARCHING, .CRITIQUING, .WRITING,
      .FORMATTING, .CANCELLED, .COMPLETED] ∧
    ¬ ([ReportStatus.PENDING, .PLANNING, .RESEARCHING, .CRITIQUING,
        .WRITING, .FORMATTING, .CANCELLED, .COMPLETED].Chain'
        (fun a b => okWrite a b = true)) := by
  have hm1 : SystemTrace [.PENDING, .PLANNING, .PLANNING, .CANCELLED] := by
    have h := SystemTrace.serialized (.cancelledAt [2]) (by decide)
    exact (by rfl : statusTrace (.cancelledAt [2]) =
      [.PENDING, .PLANNING, .PLANNING, .CANCELLED]) ▸ h
  have hm2 : SystemTrace [.PENDING, .PLANNING, .RESEARCHING, .CRITIQUING,
      .WRITING, .FORMATTING, .CANCELLED, .COMPLETED] := by
    have h := SystemTrace.reviewCancelRace [1, 1, 1, 1, 1] rfl (by decide)
    exact (by rfl : (ReportStatus.PENDING ::
        (phaseWrites [1, 1, 1, 1, 1] ++ [.CANCELLED, .COMPLETED])) =
      [.PENDING, .PLANNING, .RESEARCHING, .CRITIQUING, .WRITING,
        .FORMATTING, .CANCELLED, .COMPLETED]) ▸ h
  have hv1 : ¬ ([ReportStatus.PENDING, .PLANNING, .PLANNING,
      .CANCELLED].Chain' (fun a b => okWrite a b = true)) := by
    intro hch
    have h1 := (List.chain'_cons.mp hch).2
    have h2 := (List.chain'_cons.mp h1).1
    exact absurd h2 (by decide)
  have hv2 : ¬ ([ReportStatus.PENDING, .PLANNING, .RESEARCHING,
      .CRITIQUING, .WRITING, .FORMATTING, .CANCELLED, .COMPLETED].Chain'
      (fun a b => okWrite a b = true)) := by
    intro hch
    have h1 := (List.chain'_cons.mp hch).2
    have h2 := (List.chain'_cons.mp h1).2
    have h3 := (List.chain'_cons.mp h2).2
    have h4 := (List.chain'_cons.mp h3).2
    have h5 := (List.chain'_cons.mp h4).2
    have h6 := (List.chain'_cons.mp h5).2
    have h7 := (List.chain'_cons.mp h6).1
    exact absurd h7 (by decide)
  exact ⟨fun hc => hv1 (hc _ hm1), hm1, hv1, hm2, hv2⟩

/-- C1, amended. Every status write of a serialized run — engine writes
landing in program order, cancellation taking effect before the engine's
next status write — either advances the status strictly forward in the
order `PENDING, PLANNING, RESEARCHING, CRITIQUING, WRITING, FORMATTING,
COMPLETED`, re-writes the in-progress status already current (an Inngest
step retry, `retries: 2`, re-runs the step's initial status update), or
moves a non-terminal status to `FAILED`/`CANCELLED`; no such write moves
backward or lands on a terminal status.  The unconditional updates make
this guarantee serialized-only: the race traces of `SystemTrace` land
writes on terminal statuses. -/
theorem serialized_status_writes_monotone (o : RunOutcome)
    (h : runOutcomeOk o = true) :
    (statusTrace o).Chain' (fun a b => okWriteRetry a b = true) := by
  apply writesOkR_chain'
  cases o with
  | completed as =>
    simp only [runOutcomeOk, Bool.and_eq_true, decide_eq_true_eq] at h
    obtain ⟨h5, hall⟩ := h
    exact phaseWrites_ok as _ (by omega) hall (Or.inl rfl)
  | failedAt as =>
    simp only [runOutcomeOk, Bool.and_eq_true, decide_eq_true_eq] at h
    obtain ⟨⟨⟨hge, hle⟩, hall⟩, hlast⟩ := h
    exact phaseWrites_ok as _ hle hall (Or.inr (Or.inl rfl))
  | cancelledAt as =>
    simp only [runOutcomeOk, Bool.and_eq_true, decide_eq_true_eq] at h
    obtain ⟨hle, hall⟩ := h
    exact phaseWrites_ok as _ hle hall (Or.inr (Or.inr rfl))

/-- Witness for `serialized_status_writes_monotone`: a completed run in
which the planning step retried once (two `PLANNING` writes) and the
review step used all three executions. -/
theorem serialized_status_writes_monotone_witness :
    runOutcomeOk (.completed [2, 1, 1, 1, 3]) = true ∧
      (statusTrace (.completed [2, 1, 1, 1, 3])).Chain'
        (fun a b => okWriteRetry a b = true) :=
  ⟨by decide, serialized_status_writes_monotone _ (by decide)⟩

theorem clampDefault_mem (c : ℚ) :
    0 ≤ clampDefault c ∧ clampDefault c ≤ 1 := by
  unfold clampDefault
  split_ifs with h
  · norm_num
  · push_neg at h
    exact ⟨h.1, h.2⟩

/-- C2, counterexample. The critic's confidence handling divides by 100
only once and never clamps afterwards: a raw confidence of `500` is stored
as `5`, outside `[0, 1]`, so the claim that every stored confidence lies
in `[0, 1]` is false. -/
theorem critic_confidence_not_clamped : ¬ claimConfidenceInRange := by
  intro h
  have h500 := (h 500).2.2
  norm_num [critiqueConfidenceNorm] at h500

/-- C2, amended. The researcher's stored confidence is always in `[0, 1]`
(divide by 100 when above 1, then default to 0.5 when still out of range);
the critic only divides by 100 when the raw value exceeds 1 and does not
clamp afterwards, so its stored confidence is in `[0, 1]` exactly when the
raw value lies in `[0, 100]`. -/
theorem confidence_normalization (raw : ℚ) :
    (0 ≤ synthesizeConfidence raw ∧ synthesizeConfidence raw ≤ 1) ∧
    (0 ≤ raw → raw ≤ 100 →
      0 ≤ critiqueConfidenceNorm raw ∧ critiqueConfidenceNorm raw ≤ 1) := by
  constructor
  · exact clampDefault_mem _
  · intro h0 h100
    unfold critiqueConfidenceNorm
    split_ifs with h1
    · constructor
      · exact div_nonneg h0 (by norm_num)
      · rw [div_le_one (by norm_num)]
        exact h100
    · exact ⟨h0, le_of_not_lt h1⟩

/-- Witness for `confidence_normalization` at raw value `50`. -/
theorem confidence_normalization_witness :
    (0 ≤ (50 : ℚ) ∧ (50 : ℚ) ≤ 100) ∧
      (0 ≤ critiqueConfidenceNorm 50 ∧ critiqueConfidenceNorm 50 ≤ 1) :=
  ⟨⟨by norm_num, by norm_num⟩,
    (confidence_normalization 50).2 (by norm_num) (by norm_num)⟩

/-- C3, counterexample. The `write-report` step writes only the `WRITING`
status; it persists no artifact (the draft stays in the step's return
value), so the claim that every phase persists its output artifact is
false at the Write phase. -/
theorem write_phase_persists_no_artifact : ¬ claimPhasePersistence := by
  intro h
  exact absurd (h .write).2 (by decide)

/-- C3, amended. The Plan, Research, Critique and Review phases each
write their in-progress status and persist an artifact within their own
step; the Write phase's step writes only the `WRITING` status and no
artifact field — the draft reaches the record only as `finalReport` in
the Review step's completion update, which atomically also sets
`COMPLETED`, `completedAt` and `reportMetadata`. -/
theorem phase_persistence (p : Phase) :
    (p ∈ ([.plan, .research, .critique, .review] : List Phase) →
      (stepUpdates p).any (fun u => u.status = some p.startStatus) = true ∧
      (stepUpdates p).any persistsArtifact = true) ∧
    ((stepUpdates Phase.write).all (fun u => !persistsArtifact u) = true) ∧
    ((stepUpdates Phase.write).any
      (fun u => u.status = some .WRITING) = true) ∧
    ((stepUpdates Phase.review).any
      (fun u => u.finalReport && u.completedAt && u.reportMetadata &&
        u.status = some .COMPLETED) = true) := by
  cases p <;> decide

/-- Witness for `phase_persistence` at the Plan phase. -/
theorem phase_persistence_witness :
    Phase.plan ∈ ([.plan, .research, .critique, .review] : List Phase) ∧
      ((stepUpdates Phase.plan).any
        (fun u => u.status = some Phase.plan.startStatus) = true ∧
       (stepUpdates Phase.plan).any persistsArtifact = true) :=
  ⟨by decide, (phase_persistence Phase.plan).1 (by decide)⟩

/-- C4, counterexample. The cancellation handler's update sets
`errorMessage = 'Cancelled by user'` together with status `CANCELLED`,
not `FAILED`, so the claim that `errorMessage` is only ever set with
status `FAILED` is false. -/
theorem cancel_sets_error_message : ¬ claimErrorMessageOnlyFailed := by
  intro h
  have hmem : cancelUpdate ∈ systemWrites "boom" := by decide
  have := h "boom" cancelUpdate hmem (by decide)
  exact absurd this (by decide)

/-- C4, amended. Every update of the system that sets `errorMessage`
sets status `FAILED` (engine failure path) or `CANCELLED` (cancellation
handler, message `'Cancelled by user'`); no write pairs `errorMessage`
with any other status. -/
theorem error_message_only_terminal_abort (msg : String) (u : UpdateData)
    (hu : u ∈ systemWrites msg) (he : u.errorMessage ≠ none) :
    u.status = some .FAILED ∨ u.status = some .CANCELLED := by
  simp only [systemWrites, stepUpdates, engineFailureUpdate, cancelUpdate,
    List.append_assoc, List.cons_append, List.nil_append, List.mem_cons,
    List.not_mem_nil, or_false] at hu
  rcases hu with rfl | rfl | rfl | rfl | rfl | rfl | rfl | rfl | rfl |
      rfl | rfl <;>
    first
      | exact absurd rfl he
      | (left; rfl)
      | (right; rfl)

/-- Witness for `error_message_only_terminal_abort` at the cancellation
update. -/
theorem error_message_only_terminal_abort_witness :
    (cancelUpdate ∈ systemWrites "boom" ∧ cancelUpdate.errorMessage ≠ none) ∧
      (cancelUpdate.status = some .FAILED ∨
        cancelUpdate.status = some .CANCELLED) :=
  ⟨⟨by decide, by decide⟩,
    error_message_only_terminal_abort "boom" cancelUpdate (by decide)
      (by decide)⟩

/-- C5. The start-run transaction either debits exactly one credit and
creates exactly one `PENDING` report, or (with fewer than 1 credit)
reports insufficient credits with no side effect; because debit and
creation are one atomic transition, a second request issued after a
request that consumed the last credit observes the debited balance and is
rejected without creating anything. -/
theorem start_run_atomic (s : UserState) (t : String) :
    (1 ≤ s.credits →
      startRun s t =
        (.started s.reports.length,
         { credits := s.credits - 1,
           reports := s.reports ++ [{ topic := t, status := .PENDING }] })) ∧
    (s.credits = 0 → startRun s t = (.insufficientCredits, s)) ∧
    (s.credits = 1 →
      (startRun (startRun s t).2 t).1 = .insufficientCredits ∧
      (startRun (startRun s t).2 t).2 = (startRun s t).2) := by
  refine ⟨fun h => ?_, fun h => ?_, fun h => ?_⟩
  · simp [startRun, h]
  · simp [startRun, h]
  · simp [startRun, h]

/-- Witness for `start_run_atomic`: one credit, first request creates a
`PENDING` report, second request is rejected with no new report. -/
theorem start_run_atomic_witness :
    ((1 : Nat) ≤ (⟨1, []⟩ : UserState).credits ∧ (⟨1, []⟩ : UserState).credits = 1) ∧
      (startRun ⟨1, []⟩ "The future of renewable energy storage" =
        (.started 0,
         ⟨0, [{ topic := "The future of renewable energy storage",
                status := .PENDING }]⟩) ∧
       (startRun (startRun ⟨1, []⟩ "The future of renewable energy storage").2
          "The future of renewable energy storage").1 = .insufficientCredits) :=
  ⟨⟨by decide, by decide⟩,
    ⟨(start_run_atomic ⟨1, []⟩ "The future of renewable energy storage").1
       (by decide),
     ((start_run_atomic ⟨1, []⟩ "The future of renewable energy storage").2.2
       (by decide)).1⟩⟩

/-- C6. Cancellation is idempotent and rejected on terminal runs: a second
cancel of the same record leaves the record exactly as one cancel does, a
cancel of a terminal record is rejected and changes nothing, and a cancel
of a non-terminal record succeeds, sets `CANCELLED`, and makes any further
cancel rejected. -/
theorem cancel_idempotent_and_guarded (r : ReportRow) :
    ((cancelReport (cancelReport r).2).2 = (cancelReport r).2) ∧
    (r.status.isTerminal = true → cancelReport r = (.cannotCancel, r)) ∧
    (r.status.isTerminal = false →
      (cancelReport r).1 = .cancelled ∧
      (cancelReport r).2.status = .CANCELLED ∧
      (cancelReport (cancelReport r).2).1 = .cannotCancel) := by
  cases hT : r.status.isTerminal with
  | true =>
    have h1 : cancelReport r = (.cannotCancel, r) := by
      simp [cancelReport, hT]
    exact ⟨by rw [h1, h1], fun _ => h1, fun hf => Bool.noConfusion hf⟩
  | false =>
    have h1 : cancelReport r =
        (.cancelled,
         { r with status := .CANCELLED,
                  errorMessage := some "Cancelled by user" }) := by
      simp [cancelReport, hT]
    have h2 : cancelReport
        ({ r with status := .CANCELLED,
                  errorMessage := some "Cancelled by user" } : ReportRow) =
        (.cannotCancel,
         { r with status := .CANCELLED,
                  errorMessage := some "Cancelled by user" }) := by
      simp [cancelReport, ReportStatus.isTerminal]
    refine ⟨by rw [h1, h2], fun ht => Bool.noConfusion ht, fun _ => ?_⟩
    rw [h1]
    exact ⟨rfl, rfl, by rw [h2]⟩

/-- Witness for `cancel_idempotent_and_guarded` at a `CRITIQUING`
record. -/
theorem cancel_idempotent_and_guarded_witness :
    ((⟨"t", .CRITIQUING, none⟩ : ReportRow).status.isTerminal = false) ∧
      ((cancelReport ⟨"t", .CRITIQUING, none⟩).1 = .cancelled ∧
       (cancelReport ⟨"t", .CRITIQUING, none⟩).2.status = .CANCELLED ∧
       (cancelReport (cancelReport ⟨"t", .CRITIQUING, none⟩).2).1 =
         .cannotCancel) :=
  ⟨by decide,
    (cancel_idempotent_and_guarded ⟨"t", .CRITIQUING, none⟩).2.2 (by decide)⟩

/-- C7. Every plan `planResearch` returns has between 5 and 7 questions
and its question list is the first-7 truncation of the parsed one; a
parsed plan with fewer than 5 questions (including the zero-question
parse fallback) yields a distinguishable error, never a plan. -/
theorem plan_question_bounds (p r : ResearchPlan) :
    (validatePlan p = .ok r →
      5 ≤ r.questions.length ∧ r.questions.length ≤ 7 ∧
      r.questions = p.questions.take 7) ∧
    (p.questions.length < 5 → ∃ e, validatePlan p = .error e) := by
  constructor
  · intro hok
    unfold validatePlan at hok
    split_ifs at hok with h0 hA h5 h7 hA5
    all_goals rw [Except.ok.injEq] at hok
    all_goals subst hok
    all_goals dsimp only
    · exact ⟨by simp only [List.length_take]; omega,
        by simp only [List.length_take]; omega, rfl⟩
    · exact ⟨by simp only [List.length_take]; omega,
        by simp only [List.length_take]; omega, rfl⟩
    · push_neg at h7
      exact ⟨by omega, h7, (List.take_of_length_le h7).symm⟩
    · push_neg at h7
      exact ⟨by omega, h7, (List.take_of_length_le h7).symm⟩
  · intro h5'
    by_cases h0 : p.questions.length = 0
    · exact ⟨.noQuestions, by simp [validatePlan, h0]⟩
    · by_cases hA : p.areas.length = 0
      · exact ⟨.noAreas, by simp [validatePlan, h0, hA]⟩
      · exact ⟨.tooFewQuestions p.questions.length,
          by simp [validatePlan, h0, hA, h5']⟩

theorem okPart_none_iff (o : Except String ResearchFinding) :
    okPart o = none ↔ isOkB o = false := by
  cases o <;> simp [okPart, isOkB]

theorem collectResults_eq (l : List (Except String ResearchFinding)) :
    collectResults l = (l.filterMap okPart, l.filterMap errPart) := by
  induction l with
  | nil => rfl
  | cons o rest ih =>
    cases o with
    | ok f =>
      simp [collectResults, ih, List.filterMap_cons, okPart, errPart]
    | error e =>
      simp [collectResults, ih, List.filterMap_cons, okPart, errPart]

theorem seqDelays_cons (n i : Nat) (o : Except String ResearchFinding)
    (rest : List (Except String ResearchFinding)) :
    seqDelays n i (o :: rest) = delayAfter n i o ++ seqDelays n (i + 1) rest :=
  rfl

theorem seqDelays_eq (l : List (Except String ResearchFinding)) :
    ∀ (i n : Nat), i + l.length = n →
      seqDelays n i l =
        List.replicate ((l.dropLast.filter isOkB).length) 1000 := by
  induction l with
  | nil => intro i n _; simp [seqDelays]
  | cons o rest ih =>
    intro i n h
    cases rest with
    | nil =>
      have hni : ¬ i < n - 1 := by
        simp only [List.length_cons, List.length_nil] at h; omega
      cases o <;> simp [seqDelays, delayAfter, hni]
    | cons o2 rest2 =>
      have hi : i < n - 1 := by
        simp only [List.length_cons] at h; omega
      have hr := ih (i + 1) n (by simp only [List.length_cons] at h ⊢; omega)
      rw [seqDelays_cons, hr]
      cases o with
      | ok f =>
        simp [delayAfter, hi, List.dropLast_cons₂, List.filter_cons, isOkB,
          List.replicate_succ]
      | error e =>
        simp [delayAfter, List.dropLast_cons₂, List.filter_cons, isOkB]

/-- C8, counterexample. The sequential loop's delay sits on the success
path of each iteration, so no delay separates a failed question from the
next one: with a first question failing (zero sources) and a second
succeeding, no delay at all is inserted, refuting "a fixed short delay is
inserted between consecutive questions". -/
theorem delay_skipped_after_failed_question : ¬ claimDelayBetweenAll := by
  intro h
  have h2 := h
    [Except.error
       "Failed to research question: No sources found for this question",
     Except.ok (⟨"q2", "a2", [⟨"t", "u", "s", none, none⟩], 1, "ts"⟩ :
       ResearchFinding)]
    (by simp)
  exact absurd h2 (by decide)

/-- C8, amended. `conductResearch` errors exactly when the question list
is empty or every question failed; per-question failures are collected in
order while the remaining questions are still processed (the findings are
the successful outcomes in order); in sequential mode the fixed 1000 ms
delay follows each successfully researched question other than the last
(none follows a failed question), and parallel mode inserts no delays. -/
theorem conduct_research_contract (par : Bool)
    (outcomes : List (Except String ResearchFinding)) :
    ((∃ e, (conductResearch par outcomes).1 = .error e) ↔
      (outcomes = [] ∨ ∀ o ∈ outcomes, isOkB o = false)) ∧
    ((conductResearch par outcomes).2.1 = outcomes.filterMap errPart) ∧
    (∀ l, (conductResearch par outcomes).1 = .ok l →
      l = outcomes.filterMap okPart) ∧
    ((conductResearch false outcomes).2.2 =
      List.replicate ((outcomes.dropLast.filter isOkB).length) 1000) ∧
    ((conductResearch true outcomes).2.2 = []) := by
  by_cases h0 : outcomes.length = 0
  · have hnil : outcomes = [] := List.eq_nil_of_length_eq_zero h0
    subst hnil
    exact ⟨⟨fun _ => Or.inl rfl, fun _ => ⟨"No research questions provided", rfl⟩⟩,
      rfl, fun l hl => Except.noConfusion hl, rfl, rfl⟩
  · have hc := collectResults_eq outcomes
    have hd := seqDelays_eq outcomes 0 outcomes.length (by omega)
    have hdel : ∀ b : Bool, (conductResearch b outcomes).2.2 =
        if b = true then [] else seqDelays outcomes.length 0 outcomes := by
      intro b
      unfold conductResearch
      rw [if_neg h0]
      by_cases hall2 : (collectResults outcomes).1.length = 0
      · rw [if_pos hall2]
      · rw [if_neg hall2]
    have hdelF : (conductResearch false outcomes).2.2 =
        List.replicate ((outcomes.dropLast.filter isOkB).length) 1000 := by
      rw [hdel false, if_neg (by simp), hd]
    have hdelT : (conductResearch true outcomes).2.2 = [] := by
      rw [hdel true, if_pos rfl]
    by_cases hall : (collectResults outcomes).1.length = 0
    · have heq : conductResearch par outcomes =
          (.error ("Research failed: All research questions failed. Errors: " ++
            String.intercalate "; " (collectResults outcomes).2),
           (collectResults outcomes).2,
           if par = true then [] else seqDelays outcomes.length 0 outcomes) := by
        unfold conductResearch
        rw [if_neg h0, if_pos hall]
      have hallnil : outcomes.filterMap okPart = [] := by
        rw [hc] at hall
        exact List.eq_nil_of_length_eq_zero hall
      refine ⟨?_, ?_, ?_, hdelF, hdelT⟩
      · constructor
        · intro _
          right
          intro o ho
          exact (okPart_none_iff o).mp
            (List.filterMap_eq_nil_iff.mp hallnil o ho)
        · intro _
          exact ⟨_, by rw [heq]⟩
      · rw [heq, hc]
      · intro l hl
        rw [heq] at hl
        exact Except.noConfusion hl
    · have heq : conductResearch par outcomes =
          (.ok (collectResults outcomes).1, (collectResults outcomes).2,
           if par = true then [] else seqDelays outcomes.length 0 outcomes) := by
        unfold conductResearch
        rw [if_neg h0, if_neg hall]
      refine ⟨?_, ?_, ?_, hdelF, hdelT⟩
      · constructor
        · intro he
          rcases he with ⟨e, he⟩
          rw [heq] at he
          exact Except.noConfusion he
        · intro hor
          exfalso
          rcases hor with hnil | hfail
          · exact h0 (by simp [hnil])
          · apply hall
            have h2 : outcomes.filterMap okPart = [] :=
              List.filterMap_eq_nil_iff.mpr
                (fun o ho => (okPart_none_iff o).mpr (hfail o ho))
            rw [hc, h2]
            rfl
      · rw [heq, hc]
      · intro l hl
        rw [heq, hc] at hl
        exact (Except.ok.inj hl).symm

/-- Witness for `conduct_research_contract`: a failed first question and
a successful second one yield exactly the second question's finding. -/
theorem conduct_research_contract_witness :
    ((conductResearch false
        [Except.error "Failed to research question: boom",
         Except.ok (⟨"q2", "a2", [⟨"t", "u", "s", none, none⟩], 1, "ts"⟩ :
           ResearchFinding)]).1 =
      .ok [⟨"q2", "a2", [⟨"t", "u", "s", none, none⟩], 1, "ts"⟩]) ∧
    ([(⟨"q2", "a2", [⟨"t", "u", "s", none, none⟩], 1, "ts"⟩ :
        ResearchFinding)] =
      [Except.error "Failed to research question: boom",
       Except.ok (⟨"q2", "a2", [⟨"t", "u", "s", none, none⟩], 1, "ts"⟩ :
         ResearchFinding)].filterMap okPart) :=
  ⟨by rfl,
    (conduct_research_contract false
        [Except.error "Failed to research question: boom",
         Except.ok (⟨"q2", "a2", [⟨"t", "u", "s", none, none⟩], 1, "ts"⟩ :
           ResearchFinding)]).2.2.1
      [⟨"q2", "a2", [⟨"t", "u", "s", none, none⟩], 1, "ts"⟩] (by rfl)⟩

theorem retryGo_nil (retries a : Nat) (last : Option String) :
    retryGo retries [] a last =
      (.error (retryFailMsg retries last), [], a) :=
  rfl

theorem retryGo_cons_ok (retries : Nat) (t : String)
    (rest : List (Except String String)) (a : Nat) (last : Option String) :
    retryGo retries (.ok t :: rest) a last = (.ok t, [], a + 1) :=
  rfl

theorem retryGo_cons_err (retries : Nat) (e : String)
    (rest : List (Except String String)) (a : Nat) (last : Option String) :
    retryGo retries (.error e :: rest) a last =
      if a < retries - 1 then
        ((retryGo retries rest (a + 1) (some e)).1,
         backoffDelay a :: (retryGo retries rest (a + 1) (some e)).2.1,
         (retryGo retries rest (a + 1) (some e)).2.2)
      else retryGo retries rest (a + 1) (some e) :=
  rfl

theorem retryGo_attempts_le (retries : Nat)
    (l : List (Except String String)) :
    ∀ (a : Nat) (last : Option String),
      (retryGo retries l a last).2.2 ≤ a + l.length := by
  induction l with
  | nil => intro a last; simp [retryGo_nil]
  | cons o rest ih =>
    intro a last
    cases o with
    | ok t =>
      rw [retryGo_cons_ok]
      simp
    | error e =>
      have hr := ih (a + 1) (some e)
      rw [retryGo_cons_err]
      split_ifs with h
      · show (retryGo retries rest (a + 1) (some e)).2.2 ≤
          a + (rest.length + 1)
        omega
      · show (retryGo retries rest (a + 1) (some e)).2.2 ≤
          a + (rest.length + 1)
        omega

theorem retryGo_allFail (retries : Nat) (g : Nat → Except String String)
    (errAt : Nat → String) :
    ∀ (n a : Nat) (last : Option String),
      1 ≤ n → a + n = retries →
      (∀ k, a ≤ k → k < retries → g k = .error (errAt k)) →
      retryGo retries ((List.range' a n).map g) a last =
        (.error (retryFailMsg retries (some (errAt (retries - 1)))),
         (List.range' a (n - 1)).map backoffDelay, retries) := by
  intro n
  induction n with
  | zero => intro a last h1; exact absurd h1 (by omega)
  | succ m ih =>
    intro a last h1 hsum hg
    rw [List.range'_succ, List.map_cons, hg a (le_refl a) (by omega)]
    cases m with
    | zero =>
      have hnlt : ¬ a < retries - 1 := by omega
      have ha : a = retries - 1 := by omega
      have hra : retries - 1 + 1 = retries := by omega
      rw [show List.range' (a + 1) 0 = [] from rfl, List.map_nil,
        retryGo_cons_err, if_neg hnlt, retryGo_nil, ha, hra]
      rfl
    | succ m2 =>
      have hlt : a < retries - 1 := by omega
      have hr := ih (a + 1) (some (errAt a)) (by omega) (by omega)
        (fun k hk1 hk2 => hg k (by omega) hk2)
      rw [retryGo_cons_err, if_pos hlt, hr,
        show m2 + 1 + 1 - 1 = m2 + 1 from rfl, List.range'_succ,
        List.map_cons]
      rfl

theorem retryGo_firstOk (retries : Nat) (g : Nat → Except String String)
    (errAt : Nat → String) (t : String) :
    ∀ (n a : Nat) (last : Option String) (j : Nat),
      a + n = retries → a ≤ j → j < retries →
      (∀ k, a ≤ k → k < j → g k = .error (errAt k)) →
      g j = .ok t →
      retryGo retries ((List.range' a n).map g) a last =
        (.ok t, (List.range' a (j - a)).map backoffDelay, j + 1) := by
  intro n
  induction n with
  | zero => intro a last j hsum haj hjr _ _; exact absurd hjr (by omega)
  | succ m ih =>
    intro a last j hsum haj hjr hf hok
    rw [List.range'_succ, List.map_cons]
    by_cases hja : j = a
    · subst hja
      rw [hok, retryGo_cons_ok, Nat.sub_self]
      rfl
    · have haj' : a < j := by omega
      rw [hf a (le_refl a) haj']
      have hr := ih (a + 1) (some (errAt a)) j (by omega) (by omega) hjr
        (fun k hk1 hk2 => hf k (by omega) hk2) hok
      rw [retryGo_cons_err, if_pos (show a < retries - 1 by omega), hr,
        show j - a = (j - (a + 1)) + 1 by omega, List.range'_succ,
        List.map_cons]

/-- C9. `generateWithRetry` makes at most `retries` attempts; the backoff
delays double per attempt (`2 ^ attempt * 1000` ms after failed attempt
`attempt`); when every attempt fails the raised error's message embeds
the last failure's message; and the model tier has no effect on any of
this (the oracle here ignores the model the tier selects). -/
theorem generate_with_retry_contract (tier : ModelTier) (retries : Nat)
    (g : Nat → Except String String) (errAt : Nat → String) (t : String) :
    ((generateWithRetry tier retries (fun _ => g)).2.2 ≤ retries) ∧
    (∀ k, backoffDelay (k + 1) = 2 * backoffDelay k) ∧
    (1 ≤ retries → (∀ k, k < retries → g k = .error (errAt k)) →
      generateWithRetry tier retries (fun _ => g) =
        (.error ("AI generation failed after " ++ toString retries ++
            " attempts: " ++ errAt (retries - 1)),
         (List.range (retries - 1)).map backoffDelay, retries)) ∧
    (∀ j, j < retries → (∀ k, k < j → g k = .error (errAt k)) →
      g j = .ok t →
      generateWithRetry tier retries (fun _ => g) =
        (.ok t, (List.range j).map backoffDelay, j + 1)) ∧
    (∀ tier2, generateWithRetry tier retries (fun _ => g) =
      generateWithRetry tier2 retries (fun _ => g)) := by
  refine ⟨?_, ?_, ?_, ?_, fun _ => rfl⟩
  · have h := retryGo_attempts_le retries ((List.range retries).map g) 0 none
    simpa [generateWithRetry] using h
  · intro k
    simp [backoffDelay, pow_succ]
    ring
  · intro h1 hf
    unfold generateWithRetry
    rw [List.range_eq_range']
    rw [retryGo_allFail retries g errAt retries 0 none h1 (by omega)
      (fun k _ hk => hf k hk)]
    rw [← List.range_eq_range']
    rfl
  · intro j hj hf hok
    unfold generateWithRetry
    rw [List.range_eq_range']
    rw [retryGo_firstOk retries g errAt t retries 0 none j (by omega)
      (by omega) hj (fun k _ hk => hf k hk) hok]
    rw [Nat.sub_zero, ← List.range_eq_range']

/-- Witness for `generate_with_retry_contract`: three attempts that all
fail with message `boom` produce the wrapped error after waiting 1000 ms
then 2000 ms. -/
theorem generate_with_retry_contract_witness :
    ((1 : Nat) ≤ 3 ∧
      (∀ k, k < 3 →
        (fun _ : Nat => (Except.error "boom" : Except String String)) k =
          .error ((fun _ : Nat => "boom") k))) ∧
    generateWithRetry .basic 3
        (fun _ => fun _ : Nat => (Except.error "boom" : Except String String)) =
      (.error "AI generation failed after 3 attempts: boom",
       [1000, 2000], 3) := by
  refine ⟨⟨by norm_num, fun k _ => rfl⟩, ?_⟩
  have h := (generate_with_retry_contract .basic 3
      (fun _ : Nat => (Except.error "boom" : Except String String))
      (fun _ : Nat => "boom") "t").2.2.1 (by norm_num) (fun k _ => rfl)
  rw [h]
  rfl

theorem orNum_ne_zero (v : Option Int) (d : Int) (hd : d ≠ 0) :
    orNum v d ≠ 0 := by
  cases v with
  | none => simpa [orNum] using hd
  | some x =>
    by_cases hx : x = 0
    · simp only [orNum, hx, if_pos]
      exact hd
    · simp only [orNum, if_neg hx]
      exact hx

/-- C10. `parseReviewResponse` never yields a readability score of 0:
on a successful parse a missing or zero `readabilityScore` becomes the
default 75, and on a parse failure the original draft is returned
unchanged with quality `needs-work` and score 50. -/
theorem review_parse_contract (parsed : Option ParsedReview) (orig : String) :
    ((parseReviewResponse parsed orig).reviewSummary.readabilityScore ≠ 0) ∧
    (∀ p, parsed = some p →
      (p.reviewSummary.bind ParsedSummary.readabilityScore = none ∨
       p.reviewSummary.bind ParsedSummary.readabilityScore = some 0) →
      (parseReviewResponse parsed orig).reviewSummary.readabilityScore = 75) ∧
    (parsed = none →
      (parseReviewResponse parsed orig).finalReport = orig ∧
      (parseReviewResponse parsed orig).reviewSummary.overallQuality =
        "needs-work" ∧
      (parseReviewResponse parsed orig).reviewSummary.readabilityScore = 50) := by
  cases parsed with
  | none =>
    exact ⟨(by decide : (50 : Int) ≠ 0), fun p hp => Option.noConfusion hp,
      fun _ => ⟨rfl, rfl, rfl⟩⟩
  | some p =>
    refine ⟨?_, ?_, fun h => Option.noConfusion h⟩
    · exact orNum_ne_zero _ 75 (by decide)
    · intro q hq hsc
      have hqe : q = p := (Option.some.inj hq).symm
      subst hqe
      show orNum (q.reviewSummary.bind ParsedSummary.readabilityScore) 75 = 75
      rcases hsc with hv | hv
      · rw [hv]
        rfl
      · rw [hv]
        rfl

/-- Witness for `review_parse_contract` at a failed parse. -/
theorem review_parse_contract_witness :
    (parseReviewResponse none "the draft").finalReport = "the draft" ∧
      (parseReviewResponse none "the draft").reviewSummary.overallQuality =
        "needs-work" ∧
      (parseReviewResponse none "the draft").reviewSummary.readabilityScore =
        50 :=
  (review_parse_contract none "the draft").2.2 rfl

/-- Witness for `plan_question_bounds`: a parsed plan with 8 questions is
accepted and truncated to its first 7 questions. -/
theorem plan_question_bounds_witness :
    validatePlan
        ⟨["q1", "q2", "q3", "q4", "q5", "q6", "q7", "q8"], ["a1"], "ap"⟩ =
      .ok ⟨["q1", "q2", "q3", "q4", "q5", "q6", "q7"], ["a1"], "ap"⟩ ∧
      (5 ≤ (["q1", "q2", "q3", "q4", "q5", "q6", "q7"] : List String).length ∧
       (["q1", "q2", "q3", "q4", "q5", "q6", "q7"] : List String).length ≤ 7 ∧
       (["q1", "q2", "q3", "q4", "q5", "q6", "q7"] : List String) =
         (["q1", "q2", "q3", "q4", "q5", "q6", "q7", "q8"] :
           List String).take 7) :=
  ⟨by rfl,
    (plan_question_bounds
        ⟨["q1", "q2", "q3", "q4", "q5", "q6", "q7", "q8"], ["a1"], "ap"⟩
        ⟨["q1", "q2", "q3", "q4", "q5", "q6", "q7"], ["a1"], "ap"⟩).1
      (by rfl)⟩

end ReportGen
